import Mathlib

/-! # machinable: request admission and data access

A shallow embedding of

* `middleware/mgmt.go`  (`respondWithError`, `AppUserProjectAuthzMiddleware`),
* `projects/logs/handlers.go`  (`Logs.ListProjectLogs`),
* `dsi/models/resources.go`  (`ResourceDefinition.Validate`, `ResourceObject.Validate`),
* `auth/roles.go`  (`ValidRoles`), with the role validation of the API key handlers,

followed by the properties proved about them.

Conventions.  A Go `string` is a Lean `String`; a Go map is an association list
read with `List.lookup`; a Go `error` is an `Option String` (`none` is `nil`) or
the `error` side of an `Except`.  A run of a handler either returns or stops in
a runtime panic (`Run.panic`).  Functions of external libraries and of packages
whose sources are not available are fields of an environment structure.
-/

namespace Machinable

/-! ## Go runtime notions -/

/-- Result of running a Go function body: a runtime panic, or a normal return. -/
inductive Run (α : Type) where
  | panic (msg : String)
  | returned (a : α)
  deriving Repr, DecidableEq

/-- A Go value of static type `interface{}` as the JSON decoder produces it. -/
inductive Iface where
  | null
  | bool (b : Bool)
  | number (text : String)
  | str (s : String)
  | arr (xs : List Iface)
  | obj (m : List (String × Iface))

/-- The comma-ok assertion `v.(map[string]interface{})` on the result of a map index:
`none` stands for `ok == false` (key missing, `nil`, or another dynamic type). -/
def Iface.asMap : Option Iface → Option (List (String × Iface))
  | some (Iface.obj m) => some m
  | _ => none

/-- The assertion `v.(string)` on the result of a map index; `none` is the case in
which the single-value form of the assertion panics. -/
def Iface.asString : Option Iface → Option String
  | some (Iface.str s) => some s
  | _ => none

/-- Worker of `stringsSplit`: `acc` holds the current piece, reversed. -/
def splitAt (sep : Char) : List Char → List Char → List String
  | acc, [] => [String.mk acc.reverse]
  | acc, c :: cs =>
    if c = sep then String.mk acc.reverse :: splitAt sep [] cs
    else splitAt sep (c :: acc) cs

/-- Go `strings.Split(s, sep)` for a one-character separator. -/
def stringsSplit (s : String) (sep : Char) : List String :=
  splitAt sep [] s.toList

/-! ## `middleware/mgmt.go` -/

/-- A 12-byte object identifier of the document store. -/
abbrev ObjectID := List Nat

/-- What the middleware reads from the request and the gin context. -/
structure AuthRequest where
  /-- Content of `c.Request.Header["Authorization"]`. -/
  authorization : List String
  /-- Result of `c.GetString("project")` (empty when unset). -/
  project : String
  deriving Repr, DecidableEq

/-- Collaborators of the middleware that live outside the repository sources. -/
structure AuthEnv where
  /-- The call `jwt.Parse(tokenString, auth.TokenLookup)`: the claims of a token that
  verifies, or the verification error. -/
  jwtParse : String → Except String (List (String × Iface))
  /-- The call `objectid.FromHex`. -/
  fromHex : String → Except String ObjectID
  /-- The call `FindOne` on the projects collection with the document
  `(slug, user_id)`, followed by `Decode`: `ok` when a record was decoded. -/
  findOne : String → ObjectID → Except String Unit

/-- Observable effects of one run of the middleware on the gin context and the
datastore. -/
structure AuthOutcome where
  /-- Status code and `error` message written with `c.JSON`, if any. -/
  response : Option (Nat × String)
  /-- Whether `c.Abort()` was called. -/
  aborted : Bool
  /-- Whether `c.Next()` was called. -/
  nextCalled : Bool
  /-- The `(slug, user_id)` keys of the datastore lookups performed, in order. -/
  lookups : List (String × ObjectID)
  deriving Repr, DecidableEq

/-- The context before the middleware has acted. -/
def AuthOutcome.fresh : AuthOutcome := ⟨none, false, false, []⟩

/-- Go `respondWithError(code, message, c)`: writes the error body and aborts. -/
def respondWithError (code : Nat) (message : String) (c : AuthOutcome) : AuthOutcome :=
  ⟨some (code, message), true, c.nextCalled, c.lookups⟩

/-- Go `AppUserProjectAuthzMiddleware`, the handler function it returns. -/
def AppUserProjectAuthzMiddleware (env : AuthEnv) (req : AuthRequest) : Run AuthOutcome :=
  let c := AuthOutcome.fresh
  match req.authorization with
  | [] => Run.returned (respondWithError 401 "access token required" c)
  | v0 :: _ =>
    -- tokenString := strings.Split(values[0], " ")[1]
    match (stringsSplit v0 (Char.ofNat 32)).get? 1 with
    | none => Run.panic "index out of range"
    | some tokenString =>
      match env.jwtParse tokenString with
      | Except.error _ => Run.returned (respondWithError 401 "invalid access token" c)
      | Except.ok claims =>
        if req.project = "" then
          Run.returned (respondWithError 401 "invalid project" c)
        else
          match Iface.asMap (claims.lookup "projects") with
          | none => Run.returned (respondWithError 401 "improperly formatted access token" c)
          | some projects =>
            match Iface.asMap (claims.lookup "user") with
            | none =>
              Run.returned (respondWithError 401 "improperly formatted access token" c)
            | some user =>
              match projects.lookup req.project with
              | some _ =>
                -- the body of `if !ok` is skipped and control reaches line 93
                Run.returned (respondWithError 401 "invalid access token" c)
              | none =>
                -- user["id"].(string)
                match Iface.asString (user.lookup "id") with
                | none => Run.panic "interface conversion: interface is not string"
                | some id =>
                  match env.fromHex id with
                  | Except.error _ =>
                    Run.returned
                      (respondWithError 401 "improperly formatted access token" c)
                  | Except.ok userObjectID =>
                    let c1 : AuthOutcome :=
                      ⟨c.response, c.aborted, c.nextCalled,
                        c.lookups ++ [(req.project, userObjectID)]⟩
                    match env.findOne req.project userObjectID with
                    | Except.error _ =>
                      Run.returned (respondWithError 404 "project not found" c1)
                    | Except.ok _ =>
                      Run.returned ⟨c1.response, c1.aborted, true, c1.lookups⟩

/-! ## `projects/logs/handlers.go` -/

/-- Go `url.Values`: each key with its list of values. -/
abbrev Values := List (String × List String)

/-- Comparison operators of `models.Value`. -/
inductive Operator where
  | EQ
  | GTE
  deriving Repr, DecidableEq

/-- A typed filter operand: a `time.Time` (in nanoseconds) or the value that
`models.FieldAsTypedInterface` produced. -/
inductive Typed where
  | time (nanos : Int)
  | text (s : String)
  | int (i : Int)
  deriving Repr, DecidableEq

/-- Go `models.Value`, a map from operator to operand. -/
abbrev Value := List (Operator × Typed)

/-- Go `models.Filters`, a map from field name to `models.Value`. -/
abbrev Filters := List (String × Value)

/-- The sort argument, Go `map[string]int`. -/
abbrev SortSpec := List (String × Int)

/-- Go map assignment `m[k] = v`. -/
def mapSet {β : Type} (m : List (String × β)) (k : String) (v : β) : List (String × β) :=
  match m with
  | [] => [(k, v)]
  | (k1, v1) :: rest => if k1 = k then (k, v) :: rest else (k1, v1) :: mapSet rest k v

/-- A call made on the `ProjectLogsDatastore`. -/
inductive StoreCall where
  | count (project : String) (filter : Filters)
  | list (project : String) (limit offset : Int) (filter : Filters) (sort : SortSpec)
  deriving Repr, DecidableEq

/-- The body written with `c.JSON` or `c.PureJSON`. -/
inductive Body where
  | error (message : String)
  | page (items : List String) (links : String) (count : Int)
  deriving Repr, DecidableEq

/-- Observable effects of one run of the handler. -/
structure LogsOutcome where
  /-- Status code of the response. -/
  status : Nat
  /-- Body of the response. -/
  body : Body
  /-- Datastore calls performed, in order. -/
  calls : List StoreCall
  deriving Repr, DecidableEq

/-- Collaborators of the handler whose sources are not available: the constants of
package `dsi`, package `query`, the log model of `dsi/models`, the clock and the
datastore. -/
structure LogsEnv where
  /-- Constant `dsi.LimitKey`. -/
  LimitKey : String
  /-- Constant `dsi.OffsetKey`. -/
  OffsetKey : String
  /-- Constant `dsi.SortKey`. -/
  SortKey : String
  /-- Function `query.GetLimit`. -/
  GetLimit : Values → Except String Int
  /-- Function `query.GetOffset`. -/
  GetOffset : Values → Except String Int
  /-- Reading of `time.Now()`, in nanoseconds. -/
  now : Int
  /-- Function `models.IsValidLogField`. -/
  IsValidLogField : String → Bool
  /-- Function `models.FieldAsTypedInterface`. -/
  FieldAsTypedInterface : String → String → Except String Typed
  /-- Method `Filters.AddFilter`. -/
  AddFilter : Filters → String → Value → Filters
  /-- Method `CountProjectLogs` of the store: the count and the error. -/
  CountProjectLogs : String → Filters → Int × Option String
  /-- Method `ListProjectLogs` of the store. -/
  ListProjectLogs : String → Int → Int → Filters → SortSpec → Except String (List String)
  /-- Function `query.NewLinks` applied to the request, limit, offset and count. -/
  NewLinks : Int → Int → Int → String

/-- Two-complement wrap-around of 64-bit signed arithmetic. -/
def wrapInt64 (x : Int) : Int := (x + 2 ^ 63) % 2 ^ 64 - 2 ^ 63

/-- Line 90: `pageMax := (logCount % iLimit) + logCount`. -/
def pageMax (logCount iLimit : Int) : Int :=
  wrapInt64 (Int.tmod logCount iLimit + logCount)

/-- Line 91: the condition under which the handler answers `invalid page`. -/
def invalidPage (logCount iLimit iOffset : Int) : Bool :=
  decide (wrapInt64 (iLimit + iOffset) > pageMax logCount iLimit)
    && decide (iOffset ≥ logCount) && decide (logCount ≠ 0)

/-- How the `for k, v := range values` loop of lines 53 to 85 ends. -/
inductive LoopEnd where
  /-- The loop wrote a response and the handler returned. -/
  | respond (status : Nat) (message : String)
  /-- The loop ran to its end with this filter and sort. -/
  | finished (filter : Filters) (sort : SortSpec)
  deriving Repr, DecidableEq

/-- Lines 53 to 85: the loop body applied to the entries in the order of the list,
starting from `filter` and `sort`. -/
def translate (env : LogsEnv) : Values → Filters → SortSpec → Run LoopEnd
  | [], filter, sort => Run.returned (LoopEnd.finished filter sort)
  | (k, v) :: rest, filter, sort =>
    if k = env.LimitKey ∨ k = env.OffsetKey then
      translate env rest filter sort
    else if k = env.SortKey then
      match v with
      | [] => Run.panic "index out of range"
      | sortField :: _ =>
        match sortField.toList with
        | [] => Run.panic "index out of range"
        | first :: tail =>
          if first = Char.ofNat 45 then
            translate env rest filter (mapSet sort (String.mk tail) (-1))
          else
            translate env rest filter (mapSet sort sortField 1)
    else if env.IsValidLogField k = true then
      match v with
      | [] => Run.panic "index out of range"
      | v0 :: _ =>
        match env.FieldAsTypedInterface k v0 with
        | Except.error _ =>
          Run.returned
            (LoopEnd.respond 400 ("invalid value for field \x27" ++ k ++ "\x27"))
        | Except.ok value =>
          translate env rest (env.AddFilter filter k [(Operator.EQ, value)]) sort
    else
      Run.returned (LoopEnd.respond 400 ("\x27" ++ k ++ "\x27 is not a valid field"))

/-- Line 46: `time.Hour * time.Duration(24)` in nanoseconds. -/
def dayNanos : Int := 24 * 3600 * 1000000000

/-- Go `Logs.ListProjectLogs`.  `projectId` is the context entry read by `MustGet`
(`none` when it is unset or not a string), `values` the parsed query and `visit`
the entries of `values` in the order in which `range` yields them. -/
def ListProjectLogs (env : LogsEnv) (projectId : Option String) (values visit : Values) :
    Run LogsOutcome :=
  match projectId with
  | none => Run.panic "MustGet: key projectId"
  | some projectID =>
    match env.GetLimit values with
    | Except.error e => Run.returned ⟨400, Body.error e, []⟩
    | Except.ok iLimit =>
      match env.GetOffset values with
      | Except.error e => Run.returned ⟨400, Body.error e, []⟩
      | Except.ok iOffset =>
        let old := env.now - dayNanos
        match translate env visit [("created", [(Operator.GTE, Typed.time old)])] [] with
        | Run.panic msg => Run.panic msg
        | Run.returned (LoopEnd.respond status message) =>
          Run.returned ⟨status, Body.error message, []⟩
        | Run.returned (LoopEnd.finished filter sort) =>
          -- logCount, err := l.store.CountProjectLogs(projectID, filter)
          let logCount := (env.CountProjectLogs projectID filter).1
          let calls := [StoreCall.count projectID filter]
          if iLimit = 0 then Run.panic "integer divide by zero"
          else if invalidPage logCount iLimit iOffset = true then
            Run.returned ⟨400, Body.error "invalid page", calls⟩
          else
            let calls2 := calls ++ [StoreCall.list projectID iLimit iOffset filter sort]
            match env.ListProjectLogs projectID iLimit iOffset filter sort with
            | Except.error e => Run.returned ⟨500, Body.error e, calls2⟩
            | Except.ok logs =>
              Run.returned
                ⟨200, Body.page logs (env.NewLinks iLimit iOffset logCount) logCount, calls2⟩

/-! ## `dsi/models/resources.go` -/

/-- Go `ResourceDefinition`. -/
structure ResourceDefinition where
  ID : String
  Title : String
  PathName : String
  ParallelRead : Bool
  ParallelWrite : Bool
  Created : Int
  Properties : String
  deriving Repr, DecidableEq

/-- Go `ResourceDefinition.Validate`; `unmarshalSchema` is the call
`json.Unmarshal([]byte(def.Properties), schema)` into a fresh `spec.Schema`,
yielding the error or `none`. -/
def ResourceDefinition.Validate (unmarshalSchema : String → Option String)
    (d : ResourceDefinition) : Option String :=
  if d.Title = "" then some "resource title cannot be empty"
  else if d.PathName = "" then some "resource path_name cannot be empty"
  else if d.Properties = "" then some "resource properties cannot be empty"
  else unmarshalSchema d.Properties

/-- Go `ResourceObject`, a `map[string]interface{}`. -/
abbrev ResourceObject := List (String × Iface)

/-- Lines 28 to 31: the entries of the object copied one by one into a fresh map. -/
def copyMap (obj : ResourceObject) : List (String × Iface) :=
  obj.foldl (fun data entry => mapSet data entry.1 entry.2) []

/-- Whether a dynamic value is a map or a slice: such a value is held by reference,
so the copy of line 30 shares it with the object. -/
def Iface.isReference : Iface → Bool
  | Iface.arr _ => true
  | Iface.obj _ => true
  | _ => false

/-- Library calls made by `ResourceObject.Validate`, for a type `Schema` standing
for `spec.Schema`. -/
structure SchemaEnv (Schema : Type) where
  /-- The call `json.Unmarshal([]byte(properties), schema)` into a fresh schema. -/
  unmarshal : String → Except String Schema
  /-- The call `validate.NewSchemaValidator(schema, nil, "", strfmt.Default).Validate(data)`:
  the entries of `res.Errors`, each rendered with `Error()`, in order. -/
  validate : Schema → List (String × Iface) → List String
  /-- What that call leaves, in place, in a map or slice value held by `data`; the
  identity for a validator that only reads. -/
  written : Schema → List (String × Iface) → Iface → Iface

/-- Line 21: `fmt.Sprintf` with the stored properties. -/
def propertiesDocument (properties : String) : String :=
  "\x7b\"properties\": " ++ properties ++ " \x7d"

/-- What a call of `ResourceObject.Validate` returns and leaves behind. -/
structure ValidateRun where
  /-- The returned `error`. -/
  err : Option String
  /-- Content of `*obj` at return. -/
  obj : ResourceObject
  /-- Content of `*definition` at return. -/
  definition : ResourceDefinition

/-- Go `ResourceObject.Validate`.  The body assigns neither to `*obj` nor to
`*definition`; the validator is handed the fresh map `data`, whose map and slice
values are the very values of `*obj`. -/
def ResourceObject.Validate {Schema : Type} (env : SchemaEnv Schema) (obj : ResourceObject)
    (definition : ResourceDefinition) : ValidateRun :=
  match env.unmarshal (propertiesDocument definition.Properties) with
  | Except.error e => ⟨some e, obj, definition⟩
  | Except.ok schema =>
    let data := copyMap obj
    let res := env.validate schema data
    let shared := obj.map (fun entry =>
      (entry.1, if entry.2.isReference = true then env.written schema data entry.2
                else entry.2))
    -- res.HasErrors()
    if res.length > 0 then ⟨some (String.intercalate "," res), shared, definition⟩
    else ⟨none, shared, definition⟩

/-! ## `auth/roles.go` and the API key handlers -/

/-- Constant `auth.RoleUser`. -/
def RoleUser : String := "user"

/-- Constant `auth.RoleAdmin`. -/
def RoleAdmin : String := "admin"

/-- Constant `auth.RoleAnon`. -/
def RoleAnon : String := "anonymous"

/-- Variable `auth.ValidRoles`. -/
def ValidRoles : List String := [RoleUser, RoleAdmin]

/-- Modelled from the spec: the closed role enumeration of a project API key
(sections 3 and 6: `user`, `admin`, the members of `ValidRoles`, and, for anonymous
or public access keys, `anonymous`; any other value fails validation at key-creation
time).  The handlers of
package `projects/apikeys` that apply it are not among the sources. -/
def KeyRoles : List String := ValidRoles ++ [RoleAnon]

/-- Modelled from the spec: the role validation applied to a `NewProjectKey` by the
handlers of package `projects/apikeys`, of which only the tests are available.  An
empty role defaults to `user` (section 8); any role outside the enumeration `KeyRoles`
is a validation error (section 6).  The result is the role that is handed to the
datastore. -/
def validateRole (role : String) : Except String String :=
  if role = "" then Except.ok RoleUser
  else if role ∈ KeyRoles then Except.ok role
  else Except.error "invalid role"

/-- Modelled from the spec: the status code of handler `UpdateKey` of package
`projects/apikeys` (only its test `TestUpdateKey` is available): 400 on a validation
error, 500 when the datastore call `UpdateAPIKey` fails, 200 otherwise. -/
def UpdateKey (updateAPIKey : String → Option String) (role : String) : Nat :=
  match validateRole role with
  | Except.error _ => 400
  | Except.ok r =>
    match updateAPIKey r with
    | some _ => 500
    | none => 200

/-- Modelled from the spec: the status code of handler `AddKey` of package
`projects/apikeys` (only its test `TestAddKey` is available), for a request whose
key passes (`keyIsValid`) or fails its own validation: 400 on a validation error, 500
when the datastore call `CreateAPIKey` fails, 201 otherwise. -/
def AddKey (keyIsValid : Bool) (createAPIKey : String → Option String) (role : String) :
    Nat :=
  if keyIsValid = false then 400
  else
    match validateRole role with
    | Except.error _ => 400
    | Except.ok r =>
      match createAPIKey r with
      | some _ => 500
      | none => 201

/-! ## Concrete collaborators used in the worked examples -/

/-- Value of one hexadecimal digit. -/
def hexDigit (c : Char) : Option Nat :=
  let n := c.toNat
  if 48 ≤ n ∧ n ≤ 57 then some (n - 48)
  else if 97 ≤ n ∧ n ≤ 102 then some (n - 87)
  else if 65 ≤ n ∧ n ≤ 70 then some (n - 55)
  else none

/-- Bytes written as pairs of hexadecimal digits. -/
def hexBytes : List Char → Option (List Nat)
  | [] => some []
  | [_] => none
  | a :: b :: rest =>
    match hexDigit a, hexDigit b, hexBytes rest with
    | some x, some y, some r => some ((16 * x + y) :: r)
    | _, _, _ => none

/-- An object identifier is written as 24 hexadecimal digits. -/
def demoFromHex (s : String) : Except String ObjectID :=
  match hexBytes s.toList with
  | none => Except.error "encoding/hex: invalid byte"
  | some b => if b.length = 12 then Except.ok b else Except.error "the provided hex string is not a valid ObjectID"

/-- Claims of a user who is a member of project `blog`. -/
def aliceClaims : List (String × Iface) :=
  [("user", Iface.obj [("id", Iface.str "5c0b1f2e3a4d5c6b7a8f9e0d"),
                       ("username", Iface.str "alice"),
                       ("type", Iface.str "app"), ("active", Iface.bool true)]),
   ("projects", Iface.obj [("blog", Iface.obj [("role", Iface.str "admin")])])]

/-- Claims whose user identifier is not hexadecimal. -/
def legacyClaims : List (String × Iface) :=
  [("user", Iface.obj [("id", Iface.str "42"), ("username", Iface.str "bob")]),
   ("projects", Iface.obj [])]

/-- Claims of a refresh token: neither `user` nor `projects`. -/
def refreshClaims : List (String × Iface) :=
  [("session_id", Iface.str "s-1"), ("user_id", Iface.str "5c0b1f2e3a4d5c6b7a8f9e0d")]

/-- The identifier of the user of `aliceClaims`. -/
def aliceID : ObjectID := [92, 11, 31, 46, 58, 77, 92, 107, 122, 143, 158, 13]

/-- A small installation: three tokens verify, and the projects collection holds
project `shop` of the user of `aliceClaims`. -/
def demoAuthEnv : AuthEnv where
  jwtParse := fun t =>
    if t = "alice-token" then Except.ok aliceClaims
    else if t = "legacy-token" then Except.ok legacyClaims
    else if t = "refresh-token" then Except.ok refreshClaims
    else Except.error "signature is invalid"
  fromHex := demoFromHex
  findOne := fun slug uid =>
    if slug = "shop" ∧ uid = aliceID then Except.ok ()
    else Except.error "mongo: no documents in result"

/-- Value of a run of decimal digits, continuing from `acc`. -/
def digitsValue : List Char → Nat → Option Nat
  | [], acc => some acc
  | c :: cs, acc =>
    if 48 ≤ c.toNat ∧ c.toNat ≤ 57 then digitsValue cs (10 * acc + (c.toNat - 48))
    else none

/-- A non-empty string of decimal digits read as a number. -/
def parseNat (s : String) : Option Nat :=
  match s.toList with
  | [] => none
  | cs => digitsValue cs 0

/-- Modelled from the spec: the helpers of packages `dsi`, `query` and `dsi/models`
that `ListProjectLogs` calls and whose sources are not available.  The reserved
keys are `limit`, `offset` and `sort`; `limit` is a positive integer with a default
(10) and a cap (100); `offset` is a non-negative integer, default 0; the log fields
form a closed allow-list; a time or integer field coerces from digits only.  The
store holds ten log entries and never fails. -/
def demoLogsEnv : LogsEnv where
  LimitKey := "limit"
  OffsetKey := "offset"
  SortKey := "sort"
  GetLimit := fun values =>
    match values.lookup "limit" with
    | some (s :: _) =>
      match parseNat s with
      | some n => if 0 < n ∧ n ≤ 100 then Except.ok (Int.ofNat n)
                  else Except.error "invalid limit"
      | none => Except.error "invalid limit"
    | _ => Except.ok 10
  GetOffset := fun values =>
    match values.lookup "offset" with
    | some (s :: _) =>
      match parseNat s with
      | some n => Except.ok (Int.ofNat n)
      | none => Except.error "invalid offset"
    | _ => Except.ok 0
  now := 1700000000000000000
  IsValidLogField := fun k => decide (k ∈ ["created", "event", "status_code", "initiator"])
  FieldAsTypedInterface := fun k v =>
    if k = "created" then
      match parseNat v with
      | some n => Except.ok (Typed.time (Int.ofNat n))
      | none => Except.error "invalid time"
    else if k = "status_code" then
      match parseNat v with
      | some n => Except.ok (Typed.int (Int.ofNat n))
      | none => Except.error "invalid integer"
    else Except.ok (Typed.text v)
  AddFilter := fun filter k v => mapSet filter k v
  CountProjectLogs := fun _ _ => (10, none)
  ListProjectLogs := fun _ _ _ _ _ => Except.ok []
  NewLinks := fun _ _ _ => ""

/-- The last valid page boundary as the specification words it (section 4.3):
`totalCount - (totalCount % limit)` when the remainder is nonzero, else
`totalCount - limit`. -/
def lastPageStart (totalCount limit : Int) : Int :=
  if Int.tmod totalCount limit ≠ 0 then totalCount - Int.tmod totalCount limit
  else totalCount - limit

/-- Requirement on a query entry other than the offending one, following the
branches of the loop: a pagination key; or the sort key with a non-empty first
value; or an allowed field whose first value coerces. -/
def EntryPasses (env : LogsEnv) (k : String) (v : List String) : Prop :=
  (k = env.LimitKey ∨ k = env.OffsetKey)
    ∨ (k = env.SortKey ∧ ∃ s rest, v = s :: rest ∧ s ≠ "")
    ∨ (k ≠ env.SortKey ∧ env.IsValidLogField k = true
        ∧ ∃ v0 rest val, v = v0 :: rest ∧ env.FieldAsTypedInterface k v0 = Except.ok val)

/-- The store of `demoLogsEnv` with a failing count: `CountProjectLogs` returns
zero together with an error. -/
def countFailsEnv : LogsEnv :=
  { demoLogsEnv with CountProjectLogs := fun _ _ => (0, some "connection refused") }

/-- JSON schema type name of a dynamic value. -/
def kindOf : Iface → String
  | Iface.null => "null"
  | Iface.bool _ => "boolean"
  | Iface.number text => if Char.ofNat 46 ∈ text.toList then "number" else "integer"
  | Iface.str _ => "string"
  | Iface.arr _ => "array"
  | Iface.obj _ => "object"

/-- A table of two stored property specifications, given as the declared type of each
property, and a validator for the `type` keyword: it reports, in the order of the
schema, each declared property that the document holds with a value of another type,
and writes nothing.  A missing property is not reported: the schema built at line 21
has no `required` list. -/
def demoSchemaEnv : SchemaEnv (List (String × String)) where
  unmarshal := fun doc =>
    if doc = propertiesDocument "\x7b\"age\": \x7b\"type\": \"integer\"\x7d\x7d" then
      Except.ok [("age", "integer")]
    else if doc = propertiesDocument "\x7b\x7d" then Except.ok []
    else Except.error "unexpected end of JSON input"
  validate := fun schema data =>
    schema.filterMap (fun property =>
      match data.lookup property.1 with
      | none => none
      | some v =>
        if property.2 = kindOf v ∨ (property.2 = "number" ∧ kindOf v = "integer") then none
        else some (property.1 ++ " in body must be of type " ++ property.2 ++ ": \""
                    ++ kindOf v ++ "\""))
  written := fun _ _ v => v

/-- A definition whose stored properties declare `age` as an integer. -/
def personDefinition : ResourceDefinition :=
  ⟨"d1", "Person", "people", true, true, 0, "\x7b\"age\": \x7b\"type\": \"integer\"\x7d\x7d"⟩

/-! ## Properties of `AppUserProjectAuthzMiddleware` -/

/-- C1: a request whose token verifies and whose claims list the target project
`blog` is answered 401 `invalid access token`; the next handler is not invoked and
the datastore is not consulted. -/
theorem authz_claim_hit_is_rejected :
    AppUserProjectAuthzMiddleware demoAuthEnv ⟨["Bearer alice-token"], "blog"⟩
      = Run.returned ⟨some (401, "invalid access token"), true, false, []⟩ := by
  decide

/-- C2 fails as stated: the token verifies, `user` and `projects` are maps and the
target project `shop` is not among the claims, yet the request is denied with 401
and no datastore lookup takes place (the user identifier is not hexadecimal). -/
theorem authz_claim_miss_can_be_401 :
    demoAuthEnv.jwtParse "legacy-token" = Except.ok legacyClaims
      ∧ (Iface.asMap (legacyClaims.lookup "user")).isSome = true
      ∧ (Iface.asMap (legacyClaims.lookup "projects")).isSome = true
      ∧ ((Iface.asMap (legacyClaims.lookup "projects")).bind
          (fun m => m.lookup "shop")).isNone = true
      ∧ AppUserProjectAuthzMiddleware demoAuthEnv ⟨["Bearer legacy-token"], "shop"⟩
          = Run.returned
              ⟨some (401, "improperly formatted access token"), true, false, []⟩ := by
  refine ⟨rfl, ?_, ?_, ?_, ?_⟩ <;> decide

/-- C2, amended: with a verified token, `user` and `projects` maps, a non-empty target
slug that is not a key of `projects`, and a string `id` in `user`: when the identifier
decodes, exactly one lookup keyed by (slug, user id) decides between invoking the next
handler and answering 404; when it does not decode the answer is 401 with no lookup. -/
theorem authz_claim_miss_outcome (env : AuthEnv) (req : AuthRequest)
    (v0 : String) (rest : List String) (tok : String)
    (claims projects user : List (String × Iface)) (id : String)
    (hhdr : req.authorization = v0 :: rest)
    (htok : (stringsSplit v0 (Char.ofNat 32)).get? 1 = some tok)
    (hver : env.jwtParse tok = Except.ok claims)
    (hslug : req.project ≠ "")
    (hprojects : Iface.asMap (claims.lookup "projects") = some projects)
    (huser : Iface.asMap (claims.lookup "user") = some user)
    (hmiss : projects.lookup req.project = none)
    (hid : Iface.asString (user.lookup "id") = some id) :
    AppUserProjectAuthzMiddleware env req
      = Run.returned
          (match env.fromHex id with
           | Except.error _ =>
             ⟨some (401, "improperly formatted access token"), true, false, []⟩
           | Except.ok uid =>
             match env.findOne req.project uid with
             | Except.ok _ => ⟨none, false, true, [(req.project, uid)]⟩
             | Except.error _ =>
               ⟨some (404, "project not found"), true, false, [(req.project, uid)]⟩) := by
  unfold AppUserProjectAuthzMiddleware
  simp only [hhdr, htok, hver, hprojects, huser, hmiss, hid, if_neg hslug]
  cases hx : env.fromHex id with
  | error e => simp [respondWithError, AuthOutcome.fresh]
  | ok uid =>
    cases hf : env.findOne req.project uid with
    | error e => simp [hf, respondWithError, AuthOutcome.fresh]
    | ok u => simp [hf, AuthOutcome.fresh]

/-- Witness for C2, amended: project `shop` is missing from the claims of
`alice-token` and is found by the single lookup. -/
theorem authz_claim_miss_outcome_witness :
    AppUserProjectAuthzMiddleware demoAuthEnv ⟨["Bearer alice-token"], "shop"⟩
      = Run.returned ⟨none, false, true, [("shop", aliceID)]⟩ :=
  (authz_claim_miss_outcome demoAuthEnv ⟨["Bearer alice-token"], "shop"⟩
    "Bearer alice-token" [] "alice-token" aliceClaims
    [("blog", Iface.obj [("role", Iface.str "admin")])]
    [("id", Iface.str "5c0b1f2e3a4d5c6b7a8f9e0d"), ("username", Iface.str "alice"),
      ("type", Iface.str "app"), ("active", Iface.bool true)]
    "5c0b1f2e3a4d5c6b7a8f9e0d"
    rfl (by decide) rfl (by decide) rfl rfl rfl rfl).trans (by decide)

/-- C3: an `Authorization` value without a space makes the middleware stop in an
index-out-of-range panic instead of answering 401. -/
theorem authz_header_without_space_panics (env : AuthEnv) (project : String) :
    AppUserProjectAuthzMiddleware env ⟨["Bearer"], project⟩
      = Run.panic "index out of range" := by
  unfold AppUserProjectAuthzMiddleware
  have h : (stringsSplit "Bearer" (Char.ofNat 32)).get? 1 = none := by decide
  simp only [h]

/-- C4: when the token verifies and the `projects` entry or the `user` entry of its
claims is missing or not a map, the middleware returns normally with a 401 response,
having called neither the next handler nor the datastore. -/
theorem authz_malformed_claims_rejected (env : AuthEnv) (req : AuthRequest)
    (v0 : String) (rest : List String) (tok : String) (claims : List (String × Iface))
    (hhdr : req.authorization = v0 :: rest)
    (htok : (stringsSplit v0 (Char.ofNat 32)).get? 1 = some tok)
    (hver : env.jwtParse tok = Except.ok claims)
    (hbad : Iface.asMap (claims.lookup "projects") = none
              ∨ Iface.asMap (claims.lookup "user") = none) :
    AppUserProjectAuthzMiddleware env req
      = Run.returned
          ⟨some (401, if req.project = "" then "invalid project"
                      else "improperly formatted access token"), true, false, []⟩ := by
  unfold AppUserProjectAuthzMiddleware
  simp only [hhdr, htok, hver]
  by_cases hp : req.project = ""
  · simp [hp, respondWithError, AuthOutcome.fresh]
  · simp only [if_neg hp]
    cases hm : Iface.asMap (claims.lookup "projects") with
    | none => simp [respondWithError, AuthOutcome.fresh]
    | some projects =>
      have hu : Iface.asMap (claims.lookup "user") = none := by
        rcases hbad with h | h
        · rw [hm] at h; cases h
        · exact h
      simp [hu, respondWithError, AuthOutcome.fresh]

/-- Witness for C4: the claims of `refresh-token` carry neither map. -/
theorem authz_malformed_claims_rejected_witness :
    AppUserProjectAuthzMiddleware demoAuthEnv ⟨["Bearer refresh-token"], "blog"⟩
      = Run.returned
          ⟨some (401, if ("blog" : String) = "" then "invalid project"
                      else "improperly formatted access token"), true, false, []⟩ :=
  authz_malformed_claims_rejected demoAuthEnv ⟨["Bearer refresh-token"], "blog"⟩
    "Bearer refresh-token" [] "refresh-token" refreshClaims
    rfl (by decide) rfl (Or.inl rfl)

/-! ## Properties of the page check of `ListProjectLogs` -/

/-- Within the 64-bit range the wrap-around is the identity. -/
theorem wrapInt64_of_range (x : Int) (hlo : -(2 ^ 63) ≤ x) (hhi : x < 2 ^ 63) :
    wrapInt64 x = x := by
  unfold wrapInt64
  omega

/-- The page check in closed form, for non-negative count and offset, a positive
limit and sums that stay below `2 ^ 63`. -/
theorem invalidPage_eq_true_iff (total limit offset : Int)
    (ht : 0 ≤ total) (hl : 0 < limit) (ho : 0 ≤ offset)
    (hsum : limit + offset < 2 ^ 63) (hmax : Int.tmod total limit + total < 2 ^ 63) :
    invalidPage total limit offset = true ↔ (total ≠ 0 ∧ offset ≥ total) := by
  have hr0 : 0 ≤ Int.tmod total limit := Int.tmod_nonneg limit ht
  have hr1 : Int.tmod total limit < limit := Int.tmod_lt_of_pos total hl
  have hw1 : wrapInt64 (limit + offset) = limit + offset :=
    wrapInt64_of_range _ (by omega) hsum
  have hw2 : wrapInt64 (Int.tmod total limit + total) = Int.tmod total limit + total :=
    wrapInt64_of_range _ (by omega) hmax
  unfold invalidPage pageMax
  rw [hw1, hw2]
  simp only [Bool.and_eq_true, decide_eq_true_eq]
  constructor
  · rintro ⟨⟨_, h2⟩, h3⟩
    exact ⟨h3, h2⟩
  · rintro ⟨h3, h2⟩
    exact ⟨⟨by omega, h2⟩, h3⟩

/-- The handler answers `invalid page` exactly when the condition of line 91 holds
for the count that the store reported. -/
theorem logs_invalid_page_response (env : LogsEnv) (projectID : String)
    (values visit : Values) (limit offset : Int) (filter : Filters) (sort : SortSpec)
    (hlim : env.GetLimit values = Except.ok limit)
    (hoff : env.GetOffset values = Except.ok offset)
    (htr : translate env visit
        [("created", [(Operator.GTE, Typed.time (env.now - dayNanos))])] []
          = Run.returned (LoopEnd.finished filter sort))
    (hpos : limit ≠ 0) :
    ListProjectLogs env (some projectID) values visit
        = Run.returned
            ⟨400, Body.error "invalid page", [StoreCall.count projectID filter]⟩
      ↔ invalidPage (env.CountProjectLogs projectID filter).1 limit offset = true := by
  simp only [ListProjectLogs, hlim, hoff, htr, if_neg hpos]
  cases hb : invalidPage (env.CountProjectLogs projectID filter).1 limit offset with
  | true => simp
  | false =>
    cases hls : env.ListProjectLogs projectID limit offset filter sort with
    | error e => simp
    | ok logs => simp

/-- When the condition of line 91 fails the handler goes on to ask the store for the
page: it answers 500 with the error of the store, or 200 with the items, the links
and the count. -/
theorem logs_listing_response (env : LogsEnv) (projectID : String)
    (values visit : Values) (limit offset : Int) (filter : Filters) (sort : SortSpec)
    (hlim : env.GetLimit values = Except.ok limit)
    (hoff : env.GetOffset values = Except.ok offset)
    (htr : translate env visit
        [("created", [(Operator.GTE, Typed.time (env.now - dayNanos))])] []
          = Run.returned (LoopEnd.finished filter sort))
    (hpos : limit ≠ 0)
    (hvalid : invalidPage (env.CountProjectLogs projectID filter).1 limit offset = false) :
    ListProjectLogs env (some projectID) values visit
      = (match env.ListProjectLogs projectID limit offset filter sort with
         | Except.error e =>
           Run.returned
             ⟨500, Body.error e,
               [StoreCall.count projectID filter,
                StoreCall.list projectID limit offset filter sort]⟩
         | Except.ok logs =>
           Run.returned
             ⟨200, Body.page logs
                 (env.NewLinks limit offset (env.CountProjectLogs projectID filter).1)
                 (env.CountProjectLogs projectID filter).1,
               [StoreCall.count projectID filter,
                StoreCall.list projectID limit offset filter sort]⟩) := by
  simp only [ListProjectLogs, hlim, hoff, htr, if_neg hpos, hvalid]
  cases hls : env.ListProjectLogs projectID limit offset filter sort with
  | error e => simp
  | ok logs => simp

/-- C5: in a run of `ListProjectLogs` whose query translates, with the store reporting
`totalCount >= 0`, `limit > 0`, `offset >= 0` and no 64-bit overflow, the handler
answers 400 `invalid page` exactly when `totalCount != 0` and `offset >= totalCount`,
and otherwise goes on to list the page; so every offset passes when `totalCount = 0`;
with ten entries and `limit = 5`, offset 10 is answered `invalid page` and offset 5 is
answered 200. -/
theorem page_check_bad_page_iff (env : LogsEnv) (projectID : String)
    (values visit : Values) (total limit offset : Int) (filter : Filters)
    (sort : SortSpec)
    (hlim : env.GetLimit values = Except.ok limit)
    (hoff : env.GetOffset values = Except.ok offset)
    (htr : translate env visit
        [("created", [(Operator.GTE, Typed.time (env.now - dayNanos))])] []
          = Run.returned (LoopEnd.finished filter sort))
    (hcount : (env.CountProjectLogs projectID filter).1 = total)
    (ht : 0 ≤ total) (hl : 0 < limit) (ho : 0 ≤ offset)
    (hsum : limit + offset < 2 ^ 63) (hmax : Int.tmod total limit + total < 2 ^ 63) :
    (ListProjectLogs env (some projectID) values visit
          = Run.returned
              ⟨400, Body.error "invalid page", [StoreCall.count projectID filter]⟩
        ↔ (total ≠ 0 ∧ offset ≥ total))
      ∧ (¬ (total ≠ 0 ∧ offset ≥ total) →
          ListProjectLogs env (some projectID) values visit
            = (match env.ListProjectLogs projectID limit offset filter sort with
               | Except.error e =>
                 Run.returned
                   ⟨500, Body.error e,
                     [StoreCall.count projectID filter,
                      StoreCall.list projectID limit offset filter sort]⟩
               | Except.ok logs =>
                 Run.returned
                   ⟨200, Body.page logs (env.NewLinks limit offset total) total,
                     [StoreCall.count projectID filter,
                      StoreCall.list projectID limit offset filter sort]⟩))
      ∧ (total = 0 →
          ListProjectLogs env (some projectID) values visit
            ≠ Run.returned
                ⟨400, Body.error "invalid page", [StoreCall.count projectID filter]⟩)
      ∧ ListProjectLogs demoLogsEnv (some "blog")
            [("limit", ["5"]), ("offset", ["10"])] [("limit", ["5"]), ("offset", ["10"])]
          = Run.returned
              ⟨400, Body.error "invalid page",
                [StoreCall.count "blog"
                  [("created", [(Operator.GTE, Typed.time (demoLogsEnv.now - dayNanos))])]]⟩
      ∧ ListProjectLogs demoLogsEnv (some "blog")
            [("limit", ["5"]), ("offset", ["5"])] [("limit", ["5"]), ("offset", ["5"])]
          = Run.returned
              ⟨200, Body.page [] "" 10,
                [StoreCall.count "blog"
                  [("created", [(Operator.GTE, Typed.time (demoLogsEnv.now - dayNanos))])],
                 StoreCall.list "blog" 5 5
                  [("created", [(Operator.GTE, Typed.time (demoLogsEnv.now - dayNanos))])]
                  []]⟩ := by
  have hpos : limit ≠ 0 := ne_of_gt hl
  have hpage := invalidPage_eq_true_iff total limit offset ht hl ho hsum hmax
  have hresp := logs_invalid_page_response env projectID values visit limit offset filter
    sort hlim hoff htr hpos
  rw [hcount] at hresp
  have hiff := hresp.trans hpage
  refine ⟨hiff, ?_, ?_, by decide, by decide⟩
  · intro hnot
    have hvalid : invalidPage (env.CountProjectLogs projectID filter).1 limit offset
        = false := by
      rw [hcount]
      cases hb : invalidPage total limit offset with
      | false => rfl
      | true => exact absurd (hpage.mp hb) hnot
    have := logs_listing_response env projectID values visit limit offset filter sort
      hlim hoff htr hpos hvalid
    rw [hcount] at this
    exact this
  · intro h0 hbad
    exact (hiff.mp hbad).1 h0

/-- Witness for C5: ten entries in the store, the query `limit=5&offset=10`. -/
theorem page_check_bad_page_iff_witness :
    ListProjectLogs demoLogsEnv (some "blog")
        [("limit", ["5"]), ("offset", ["10"])] [("limit", ["5"]), ("offset", ["10"])]
      = Run.returned
          ⟨400, Body.error "invalid page",
            [StoreCall.count "blog"
              [("created", [(Operator.GTE, Typed.time (demoLogsEnv.now - dayNanos))])]]⟩ :=
  (page_check_bad_page_iff demoLogsEnv "blog"
    [("limit", ["5"]), ("offset", ["10"])] [("limit", ["5"]), ("offset", ["10"])]
    10 5 10 [("created", [(Operator.GTE, Typed.time (demoLogsEnv.now - dayNanos))])] []
    rfl rfl (by decide) rfl (by decide) (by decide) (by decide) (by decide)
    (by decide)).1.mpr ⟨by decide, by decide⟩

/-- C6 fails as stated: with ten entries in the store and the query `limit=4&offset=9`
the boundary of the specification is 8 and the offset lies beyond it, yet the handler
does not answer `invalid page`: it lists the page and answers 200. -/
theorem page_check_accepts_beyond_lastPageStart :
    lastPageStart 10 4 = 8 ∧ ¬ ((9 : Int) ≤ lastPageStart 10 4)
      ∧ (demoLogsEnv.CountProjectLogs "blog"
          [("created", [(Operator.GTE, Typed.time (demoLogsEnv.now - dayNanos))])]).1 = 10
      ∧ ListProjectLogs demoLogsEnv (some "blog")
            [("limit", ["4"]), ("offset", ["9"])] [("limit", ["4"]), ("offset", ["9"])]
          = Run.returned
              ⟨200, Body.page [] "" 10,
                [StoreCall.count "blog"
                  [("created", [(Operator.GTE, Typed.time (demoLogsEnv.now - dayNanos))])],
                 StoreCall.list "blog" 4 9
                  [("created", [(Operator.GTE, Typed.time (demoLogsEnv.now - dayNanos))])]
                  []]⟩ := by
  decide

/-- C6, amended: in a run of `ListProjectLogs` whose query translates, with the store
reporting `totalCount > 0`, `limit > 0`, `offset >= 0` and no 64-bit overflow, the
handler answers 400 `invalid page` exactly when `offset >= totalCount` and goes on to
list the page exactly when `offset < totalCount`; the boundary `lastPageStart` lies
below `totalCount`, so every offset up to it is listed. -/
theorem page_check_accepts_iff (env : LogsEnv) (projectID : String)
    (values visit : Values) (total limit offset : Int) (filter : Filters)
    (sort : SortSpec)
    (hlim : env.GetLimit values = Except.ok limit)
    (hoff : env.GetOffset values = Except.ok offset)
    (htr : translate env visit
        [("created", [(Operator.GTE, Typed.time (env.now - dayNanos))])] []
          = Run.returned (LoopEnd.finished filter sort))
    (hcount : (env.CountProjectLogs projectID filter).1 = total)
    (ht : 0 < total) (hl : 0 < limit) (ho : 0 ≤ offset)
    (hsum : limit + offset < 2 ^ 63) (hmax : Int.tmod total limit + total < 2 ^ 63) :
    (ListProjectLogs env (some projectID) values visit
          = Run.returned
              ⟨400, Body.error "invalid page", [StoreCall.count projectID filter]⟩
        ↔ offset ≥ total)
      ∧ (offset < total →
          ListProjectLogs env (some projectID) values visit
            = (match env.ListProjectLogs projectID limit offset filter sort with
               | Except.error e =>
                 Run.returned
                   ⟨500, Body.error e,
                     [StoreCall.count projectID filter,
                      StoreCall.list projectID limit offset filter sort]⟩
               | Except.ok logs =>
                 Run.returned
                   ⟨200, Body.page logs (env.NewLinks limit offset total) total,
                     [StoreCall.count projectID filter,
                      StoreCall.list projectID limit offset filter sort]⟩))
      ∧ lastPageStart total limit < total
      ∧ (offset ≤ lastPageStart total limit → offset < total) := by
  have hpos : limit ≠ 0 := ne_of_gt hl
  have hpage := invalidPage_eq_true_iff total limit offset (le_of_lt ht) hl ho hsum hmax
  have hresp := logs_invalid_page_response env projectID values visit limit offset filter
    sort hlim hoff htr hpos
  rw [hcount] at hresp
  have hr0 : 0 ≤ Int.tmod total limit := Int.tmod_nonneg limit (le_of_lt ht)
  have hlast : lastPageStart total limit < total := by
    unfold lastPageStart
    split
    · omega
    · omega
  refine ⟨?_, ?_, hlast, fun hle => by omega⟩
  · constructor
    · intro h
      exact (hpage.mp (hresp.mp h)).2
    · intro h
      exact hresp.mpr (hpage.mpr ⟨by omega, h⟩)
  · intro hlt
    have hvalid : invalidPage (env.CountProjectLogs projectID filter).1 limit offset
        = false := by
      rw [hcount]
      cases hb : invalidPage total limit offset with
      | false => rfl
      | true => exact absurd (hpage.mp hb).2 (by omega)
    have := logs_listing_response env projectID values visit limit offset filter sort
      hlim hoff htr hpos hvalid
    rw [hcount] at this
    exact this

/-- Witness for C6, amended: ten entries in the store, the query `limit=4&offset=9`
is listed. -/
theorem page_check_accepts_iff_witness :
    ListProjectLogs demoLogsEnv (some "blog")
        [("limit", ["4"]), ("offset", ["9"])] [("limit", ["4"]), ("offset", ["9"])]
      = Run.returned
          ⟨200, Body.page [] "" 10,
            [StoreCall.count "blog"
              [("created", [(Operator.GTE, Typed.time (demoLogsEnv.now - dayNanos))])],
             StoreCall.list "blog" 4 9
              [("created", [(Operator.GTE, Typed.time (demoLogsEnv.now - dayNanos))])]
              []]⟩ :=
  ((page_check_accepts_iff demoLogsEnv "blog"
    [("limit", ["4"]), ("offset", ["9"])] [("limit", ["4"]), ("offset", ["9"])]
    10 4 9 [("created", [(Operator.GTE, Typed.time (demoLogsEnv.now - dayNanos))])] []
    rfl rfl (by decide) rfl (by decide) (by decide) (by decide) (by decide)
    (by decide)).2.1 (by decide)).trans (by decide)

/-! ## Properties of the query translation of `ListProjectLogs` -/

/-- A string other than the empty one has a first character. -/
theorem toList_ne_nil_of_ne_empty (s : String) (h : s ≠ "") : s.toList ≠ [] := by
  intro hnil
  apply h
  apply String.ext
  exact hnil

/-- The loop stops at the offending key whenever every entry met before it passes:
the answer does not depend on the position of the key in the visiting order nor on
the filter and sort accumulated so far. -/
theorem translate_stops_at_invalid_field (env : LogsEnv) (bad : String)
    (hlimit : bad ≠ env.LimitKey) (hoffset : bad ≠ env.OffsetKey)
    (hsort : bad ≠ env.SortKey) (hinvalid : env.IsValidLogField bad = false) :
    ∀ (visit : Values) (filter : Filters) (sort : SortSpec),
      bad ∈ visit.map Prod.fst →
      (∀ k v, (k, v) ∈ visit → k ≠ bad → EntryPasses env k v) →
      translate env visit filter sort
        = Run.returned (LoopEnd.respond 400 ("\x27" ++ bad ++ "\x27 is not a valid field")) := by
  intro visit
  induction visit with
  | nil => intro filter sort hmem; simp at hmem
  | cons entry rest ih =>
    obtain ⟨k, v⟩ := entry
    intro filter sort hmem hpass
    have hrest : ∀ k1 v1, (k1, v1) ∈ rest → k1 ≠ bad → EntryPasses env k1 v1 :=
      fun k1 v1 h1 => hpass k1 v1 (List.mem_cons_of_mem _ h1)
    by_cases hk : k = bad
    · subst hk
      have h1 : ¬ (k = env.LimitKey ∨ k = env.OffsetKey) := by
        rintro (h | h)
        · exact hlimit h
        · exact hoffset h
      simp [translate, h1, hsort, hinvalid]
    · have hmem1 : bad ∈ rest.map Prod.fst := by
        simp only [List.map_cons, List.mem_cons] at hmem
        rcases hmem with h | h
        · exact absurd h.symm hk
        · exact h
      have hp := hpass k v (List.mem_cons_self _ _) hk
      by_cases h1 : k = env.LimitKey ∨ k = env.OffsetKey
      · simp only [translate, if_pos h1]
        exact ih filter sort hmem1 hrest
      · rcases hp with hp | hp | hp
        · exact absurd hp h1
        · obtain ⟨hks, s, tl, hv, hs⟩ := hp
          subst hv
          have hne := toList_ne_nil_of_ne_empty s hs
          cases hl : s.toList with
          | nil => exact absurd hl hne
          | cons first tail =>
            simp only [translate, if_neg h1, if_pos hks, hl]
            by_cases hdash : first = Char.ofNat 45
            · simp only [if_pos hdash]
              exact ih filter _ hmem1 hrest
            · simp only [if_neg hdash]
              exact ih filter _ hmem1 hrest
        · obtain ⟨hks, hvalid, v0, tl, val, hv, hco⟩ := hp
          subst hv
          simp only [translate, if_neg h1, if_neg hks, hvalid, if_true, hco]
          exact ih _ sort hmem1 hrest

/-- The datastore is reached only with a completely translated query: a run that
performs any call has parsed limit and offset and has taken the loop through every
entry, and its first call is the count under the finished filter. -/
theorem logs_store_called_only_after_translation (env : LogsEnv)
    (projectId : Option String) (values visit : Values) (o : LogsOutcome)
    (hrun : ListProjectLogs env projectId values visit = Run.returned o)
    (hcall : o.calls ≠ []) :
    ∃ projectID limit offset filter sort,
      projectId = some projectID
        ∧ env.GetLimit values = Except.ok limit
        ∧ env.GetOffset values = Except.ok offset
        ∧ translate env visit
            [("created", [(Operator.GTE, Typed.time (env.now - dayNanos))])] []
              = Run.returned (LoopEnd.finished filter sort)
        ∧ o.calls.head? = some (StoreCall.count projectID filter) := by
  cases projectId with
  | none => simp [ListProjectLogs] at hrun
  | some projectID =>
    cases hlim : env.GetLimit values with
    | error e =>
      simp only [ListProjectLogs, hlim, Run.returned.injEq] at hrun
      subst hrun
      exact absurd rfl hcall
    | ok limit =>
      cases hoff : env.GetOffset values with
      | error e =>
        simp only [ListProjectLogs, hlim, hoff, Run.returned.injEq] at hrun
        subst hrun
        exact absurd rfl hcall
      | ok offset =>
        cases htr : translate env visit
            [("created", [(Operator.GTE, Typed.time (env.now - dayNanos))])] [] with
        | panic msg => simp [ListProjectLogs, hlim, hoff, htr] at hrun
        | returned fin =>
          cases fin with
          | respond status message =>
            simp only [ListProjectLogs, hlim, hoff, htr, Run.returned.injEq] at hrun
            subst hrun
            exact absurd rfl hcall
          | finished filter sort =>
            refine ⟨projectID, limit, offset, filter, sort, rfl, rfl, rfl, rfl, ?_⟩
            simp only [ListProjectLogs, hlim, hoff, htr] at hrun
            split at hrun
            · cases hrun
            · split at hrun
              · cases hrun; rfl
              · split at hrun
                · cases hrun; rfl
                · cases hrun; rfl

/-- C7 fails as stated: in the query `created=yesterday&colour=red` the only key
outside the allow-list is `colour`, yet when `created` is visited first the answer
names `created` (its value does not coerce); visited in the other order the answer
names `colour`. -/
theorem logs_error_depends_on_visiting_order :
    demoLogsEnv.IsValidLogField "colour" = false
      ∧ demoLogsEnv.IsValidLogField "created" = true
      ∧ ListProjectLogs demoLogsEnv (some "blog")
          [("created", ["yesterday"]), ("colour", ["red"])]
          [("created", ["yesterday"]), ("colour", ["red"])]
        = Run.returned ⟨400, Body.error "invalid value for field \x27created\x27", []⟩
      ∧ ListProjectLogs demoLogsEnv (some "blog")
          [("created", ["yesterday"]), ("colour", ["red"])]
          [("colour", ["red"]), ("created", ["yesterday"])]
        = Run.returned ⟨400, Body.error "\x27colour\x27 is not a valid field", []⟩ := by
  decide

/-- C7, amended: when limit and offset parse, exactly one key `bad` of the query is
neither reserved nor allowed, and every other entry passes (a pagination key, the sort
key with a non-empty first value, or an allowed field whose first value coerces), the
handler answers 400 with the message naming `bad`, for every visiting order `visit` of
the query, and calls the datastore not at all. -/
theorem logs_single_invalid_field (env : LogsEnv) (projectID : String)
    (values visit : Values) (bad : String) (limit offset : Int)
    (horder : visit.Perm values)
    (hlim : env.GetLimit values = Except.ok limit)
    (hoff : env.GetOffset values = Except.ok offset)
    (hmem : bad ∈ values.map Prod.fst)
    (hlimit : bad ≠ env.LimitKey) (hoffset : bad ≠ env.OffsetKey)
    (hsort : bad ≠ env.SortKey) (hinvalid : env.IsValidLogField bad = false)
    (hothers : ∀ k v, (k, v) ∈ values → k ≠ bad → EntryPasses env k v) :
    ListProjectLogs env (some projectID) values visit
      = Run.returned
          ⟨400, Body.error ("\x27" ++ bad ++ "\x27 is not a valid field"), []⟩ := by
  have hmem1 : bad ∈ visit.map Prod.fst := (horder.map Prod.fst).mem_iff.mpr hmem
  have hpass : ∀ k v, (k, v) ∈ visit → k ≠ bad → EntryPasses env k v :=
    fun k v h => hothers k v (horder.mem_iff.mp h)
  have htr := translate_stops_at_invalid_field env bad hlimit hoffset hsort hinvalid visit
    [("created", [(Operator.GTE, Typed.time (env.now - dayNanos))])] [] hmem1 hpass
  simp only [ListProjectLogs, hlim, hoff, htr]

/-- Witness for C7, amended: `limit=5&event=login&colour=red&sort=-created`, visited
with the sort key first and the offending key last. -/
theorem logs_single_invalid_field_witness :
    ListProjectLogs demoLogsEnv (some "blog")
        [("limit", ["5"]), ("event", ["login"]), ("colour", ["red"]), ("sort", ["-created"])]
        [("sort", ["-created"]), ("limit", ["5"]), ("event", ["login"]), ("colour", ["red"])]
      = Run.returned ⟨400, Body.error ("\x27" ++ "colour" ++ "\x27 is not a valid field"), []⟩ :=
  logs_single_invalid_field demoLogsEnv "blog"
    [("limit", ["5"]), ("event", ["login"]), ("colour", ["red"]), ("sort", ["-created"])]
    [("sort", ["-created"]), ("limit", ["5"]), ("event", ["login"]), ("colour", ["red"])]
    "colour" 5 0 (by decide) rfl rfl (by decide) (by decide) (by decide)
    (by decide) (by decide)
    (by
      intro k v hkv hk
      simp only [List.mem_cons, Prod.mk.injEq, List.mem_singleton, List.not_mem_nil,
        or_false] at hkv
      rcases hkv with ⟨rfl, rfl⟩ | ⟨rfl, rfl⟩ | ⟨rfl, rfl⟩ | ⟨rfl, rfl⟩
      · exact Or.inl (Or.inl rfl)
      · exact Or.inr (Or.inr ⟨by decide, by decide, "login", [], Typed.text "login", rfl,
          rfl⟩)
      · exact absurd rfl hk
      · exact Or.inr (Or.inl ⟨rfl, "-created", [], rfl, by decide⟩))

/-- C8: the query `sort=&colour=red` carries a key outside the allow-list; when the
sort key is visited first the handler stops in an index-out-of-range panic (the
first value of `sort` is empty) and writes no 400 response. -/
theorem logs_invalid_field_after_empty_sort_panics :
    demoLogsEnv.IsValidLogField "colour" = false
      ∧ ListProjectLogs demoLogsEnv (some "blog")
          [("sort", [""]), ("colour", ["red"])] [("sort", [""]), ("colour", ["red"])]
        = Run.panic "index out of range" := by
  decide

/-- C9: for the query `sort=` (empty first value) the translation stops in an
index-out-of-range panic at `sortField[0]` and produces no sort specification. -/
theorem logs_empty_sort_value_panics :
    ListProjectLogs demoLogsEnv (some "blog") [("sort", [""])] [("sort", [""])]
      = Run.panic "index out of range" := by
  decide

/-! ## Properties of `ResourceDefinition.Validate` -/

/-- C10: `Validate` returns an error exactly when the title, the path name or the
properties are empty or the properties fail to parse as a schema, and `nil`
otherwise; the emptiness checks run in the order title, path name, properties, so the
message is that of the first empty field. -/
theorem definition_validate_outcome (unmarshalSchema : String → Option String)
    (d : ResourceDefinition) :
    (ResourceDefinition.Validate unmarshalSchema d ≠ none
        ↔ (d.Title = "" ∨ d.PathName = "" ∨ d.Properties = ""
            ∨ unmarshalSchema d.Properties ≠ none))
      ∧ (d.Title = "" →
          ResourceDefinition.Validate unmarshalSchema d
            = some "resource title cannot be empty")
      ∧ (d.Title ≠ "" → d.PathName = "" →
          ResourceDefinition.Validate unmarshalSchema d
            = some "resource path_name cannot be empty")
      ∧ (d.Title ≠ "" → d.PathName ≠ "" → d.Properties = "" →
          ResourceDefinition.Validate unmarshalSchema d
            = some "resource properties cannot be empty")
      ∧ (d.Title ≠ "" → d.PathName ≠ "" → d.Properties ≠ "" →
          ResourceDefinition.Validate unmarshalSchema d = unmarshalSchema d.Properties) := by
  unfold ResourceDefinition.Validate
  by_cases h1 : d.Title = ""
  · simp [h1]
  · by_cases h2 : d.PathName = ""
    · simp [h1, h2]
    · by_cases h3 : d.Properties = ""
      · simp [h1, h2, h3]
      · simp [h1, h2, h3]

/-! ## Properties of `ResourceObject.Validate` -/

/-- Assigning a key that the map does not hold appends the entry. -/
theorem mapSet_of_not_mem {β : Type} (m : List (String × β)) (k : String) (v : β)
    (h : k ∉ m.map Prod.fst) : mapSet m k v = m ++ [(k, v)] := by
  induction m with
  | nil => rfl
  | cons entry rest ih =>
    obtain ⟨k1, v1⟩ := entry
    simp only [List.map_cons, List.mem_cons, not_or] at h
    have hne : ¬ k1 = k := fun e => h.1 e.symm
    simp only [mapSet, if_neg hne, ih h.2, List.cons_append]

/-- Copying entries with distinct keys after `acc` extends `acc` by these entries. -/
theorem foldl_mapSet_of_nodup (l acc : List (String × Iface))
    (h : (acc.map Prod.fst ++ l.map Prod.fst).Nodup) :
    l.foldl (fun data entry => mapSet data entry.1 entry.2) acc = acc ++ l := by
  induction l generalizing acc with
  | nil => simp
  | cons entry rest ih =>
    have hk : entry.1 ∉ acc.map Prod.fst := by
      intro hmem
      have := List.nodup_append.mp h
      exact this.2.2 hmem (by simp)
    have hnext : ((acc ++ [entry]).map Prod.fst ++ rest.map Prod.fst).Nodup := by
      simpa [List.map_append, List.append_assoc] using h
    simp only [List.foldl_cons, mapSet_of_not_mem acc entry.1 entry.2 hk]
    rw [ih (acc ++ [entry]) hnext]
    simp

/-- The copy handed to the validator has the entries of the object. -/
theorem copyMap_eq_self (obj : ResourceObject) (h : (obj.map Prod.fst).Nodup) :
    copyMap obj = obj := by
  have := foldl_mapSet_of_nodup obj [] (by simpa using h)
  simpa [copyMap] using this

/-- C11: when the stored properties parse, `Validate` returns `nil` exactly when the
schema validator reports no violation on the copy of the document, and otherwise one
error whose message is the comma-join of all reported messages in order; the copy has
exactly the entries of the document.  At return the definition is as it was; the
document has the keys it had and every value that is not a map or a slice; with a
validator that writes nothing through the values it is handed, the document is as it
was. -/
theorem object_validate_outcome {Schema : Type} (env : SchemaEnv Schema)
    (obj : ResourceObject) (definition : ResourceDefinition) (schema : Schema)
    (hparse : env.unmarshal (propertiesDocument definition.Properties) = Except.ok schema) :
    ((ResourceObject.Validate env obj definition).err = none
        ↔ env.validate schema (copyMap obj) = [])
      ∧ (env.validate schema (copyMap obj) ≠ [] →
          (ResourceObject.Validate env obj definition).err
            = some (String.intercalate "," (env.validate schema (copyMap obj))))
      ∧ ((obj.map Prod.fst).Nodup → copyMap obj = obj)
      ∧ (ResourceObject.Validate env obj definition).definition = definition
      ∧ (ResourceObject.Validate env obj definition).obj.map Prod.fst = obj.map Prod.fst
      ∧ (∀ entry, entry ∈ obj → entry.2.isReference = false →
          entry ∈ (ResourceObject.Validate env obj definition).obj)
      ∧ ((∀ v, env.written schema (copyMap obj) v = v) →
          (ResourceObject.Validate env obj definition).obj = obj) := by
  have hobj : (ResourceObject.Validate env obj definition).obj
      = obj.map (fun entry =>
          (entry.1, if entry.2.isReference = true then
                      env.written schema (copyMap obj) entry.2
                    else entry.2)) := by
    simp only [ResourceObject.Validate, hparse]
    split <;> rfl
  refine ⟨?_, ?_, copyMap_eq_self obj, ?_, ?_, ?_, ?_⟩
  · simp only [ResourceObject.Validate, hparse]
    cases hres : env.validate schema (copyMap obj) with
    | nil => simp
    | cons msg rest => simp
  · intro hne
    simp only [ResourceObject.Validate, hparse]
    cases hres : env.validate schema (copyMap obj) with
    | nil => exact absurd hres hne
    | cons msg rest => simp
  · simp only [ResourceObject.Validate, hparse]
    split <;> rfl
  · rw [hobj, List.map_map]
    rfl
  · intro entry hmem href
    rw [hobj]
    refine List.mem_map.mpr ⟨entry, hmem, ?_⟩
    simp [href]
  · intro hread
    rw [hobj]
    have : (fun entry : String × Iface =>
        (entry.1, if entry.2.isReference = true then
                    env.written schema (copyMap obj) entry.2
                  else entry.2)) = id := by
      funext entry
      simp [hread]
    rw [this, List.map_id]

/-- Witness for C11: a document whose `age` is a string, against a definition that
declares `age` as an integer, gets the one message of the validator, and document and
definition are left as they were. -/
theorem object_validate_outcome_witness :
    (ResourceObject.Validate demoSchemaEnv [("age", Iface.str "ten")] personDefinition).err
        = some "age in body must be of type integer: \"string\""
      ∧ (ResourceObject.Validate demoSchemaEnv [("age", Iface.str "ten")]
          personDefinition).definition = personDefinition
      ∧ (ResourceObject.Validate demoSchemaEnv [("age", Iface.str "ten")]
          personDefinition).obj = [("age", Iface.str "ten")] :=
  have h := object_validate_outcome demoSchemaEnv [("age", Iface.str "ten")]
    personDefinition [("age", "integer")] rfl
  ⟨(h.2.1 (by decide)).trans (by decide), h.2.2.2.1, h.2.2.2.2.2.2 (fun _ => rfl)⟩

/-! ## Properties of the role validation of API keys -/

/-- C12 fails as stated: the role `anonymous` is neither a member of `ValidRoles` nor
empty, yet it belongs to the role enumeration of API keys and validates: with a
datastore that succeeds the update is answered 200 and the creation 201. -/
theorem api_key_role_anonymous_is_accepted :
    ("anonymous" ∉ ValidRoles) ∧ ("anonymous" : String) ≠ ""
      ∧ validateRole "anonymous" = Except.ok "anonymous"
      ∧ UpdateKey (fun _ => none) "anonymous" = 200
      ∧ AddKey true (fun _ => none) "anonymous" = 201 := by
  refine ⟨by decide, by decide, rfl, by decide, by decide⟩

/-- C12, amended: a role `user` or `admin` (the members of `ValidRoles`) or `anonymous`
validates as itself and the empty role as `user`; every other role, `Batman` for one,
is a validation error answered 400 by both handlers whatever the datastore does; with
a role that validates, a failing datastore call is answered 500 and a successful one
200 (update) or 201 (create). -/
theorem api_key_role_validation (role : String) (store : String → Option String) :
    ((role ∈ ValidRoles ∨ role = "anonymous") → validateRole role = Except.ok role)
      ∧ validateRole "" = Except.ok "user"
      ∧ ((role ≠ "user" ∧ role ≠ "admin" ∧ role ≠ "anonymous" ∧ role ≠ "") →
          validateRole role = Except.error "invalid role"
            ∧ UpdateKey store role = 400 ∧ AddKey true store role = 400)
      ∧ UpdateKey store "Batman" = 400 ∧ AddKey true store "Batman" = 400
      ∧ (∀ r, validateRole role = Except.ok r →
          (store r ≠ none → UpdateKey store role = 500 ∧ AddKey true store role = 500)
            ∧ (store r = none → UpdateKey store role = 200 ∧ AddKey true store role = 201)) := by
  have hbad : ∀ x : String, x ≠ "user" ∧ x ≠ "admin" ∧ x ≠ "anonymous" ∧ x ≠ "" →
      validateRole x = Except.error "invalid role" := by
    intro x hx
    obtain ⟨h1, h2, h3, h4⟩ := hx
    simp [validateRole, KeyRoles, ValidRoles, RoleUser, RoleAdmin, RoleAnon, h1, h2, h3, h4]
  have hbatman : validateRole "Batman" = Except.error "invalid role" :=
    hbad "Batman" (by decide)
  refine ⟨?_, rfl, ?_, ?_, ?_, ?_⟩
  · intro h
    have hcases : role = "user" ∨ role = "admin" ∨ role = "anonymous" := by
      rcases h with h | h
      · simp only [ValidRoles, RoleUser, RoleAdmin, List.mem_cons, List.mem_singleton,
          List.not_mem_nil, or_false] at h
        rcases h with h | h
        · exact Or.inl h
        · exact Or.inr (Or.inl h)
      · exact Or.inr (Or.inr h)
    rcases hcases with h | h | h
    · subst h; rfl
    · subst h; rfl
    · subst h; rfl
  · intro hx
    have hv := hbad role hx
    simp [UpdateKey, AddKey, hv]
  · simp [UpdateKey, hbatman]
  · simp [AddKey, hbatman]
  · intro r hr
    constructor
    · intro hfail
      cases hs : store r with
      | none => exact absurd hs hfail
      | some e => simp [UpdateKey, AddKey, hr, hs]
    · intro hok
      simp [UpdateKey, AddKey, hr, hok]

/-! ## Properties of `ListProjectLogs` towards the datastore -/

/-- Every property of the filter that holds initially and that `AddFilter` with an
allowed key preserves holds of the filter with which the loop finishes: the filter
grows by allowed keys only. -/
theorem translate_filter_invariant (env : LogsEnv) (P : Filters → Prop)
    (hadd : ∀ f k v, P f → env.IsValidLogField k = true → P (env.AddFilter f k v)) :
    ∀ (visit : Values) (filter : Filters) (sort : SortSpec) (filter1 : Filters)
      (sort1 : SortSpec), P filter →
      translate env visit filter sort = Run.returned (LoopEnd.finished filter1 sort1) →
      P filter1 := by
  intro visit
  induction visit with
  | nil =>
    intro filter sort filter1 sort1 hP h
    simp only [translate, Run.returned.injEq, LoopEnd.finished.injEq] at h
    exact h.1 ▸ hP
  | cons entry rest ih =>
    obtain ⟨k, v⟩ := entry
    intro filter sort filter1 sort1 hP h
    simp only [translate] at h
    split at h
    · exact ih _ _ _ _ hP h
    · split at h
      · split at h
        · cases h
        · split at h
          · cases h
          · split at h
            · exact ih _ _ _ _ hP h
            · exact ih _ _ _ _ hP h
      · split at h
        · rename_i hvalid
          split at h
          · cases h
          · split at h
            · cases h
            · exact ih _ _ _ _ (hadd _ _ _ hP hvalid) h
        · cases h

/-- C13: for the query `sort=-colour` the datastore is called with the sort field
`colour`, which is not an allowed log field. -/
theorem logs_unknown_sort_field_reaches_store :
    demoLogsEnv.IsValidLogField "colour" = false
      ∧ ListProjectLogs demoLogsEnv (some "blog")
          [("sort", ["-colour"])] [("sort", ["-colour"])]
        = Run.returned
            ⟨200, Body.page [] "" 10,
              [StoreCall.count "blog"
                 [("created", [(Operator.GTE, Typed.time (demoLogsEnv.now - dayNanos))])],
               StoreCall.list "blog" 10 0
                 [("created", [(Operator.GTE, Typed.time (demoLogsEnv.now - dayNanos))])]
                 [("colour", -1)]]⟩ := by
  decide

/-- C14: when `CountProjectLogs` returns an error the handler still lists the
documents and answers 200 with the items and the count that came with the error. -/
theorem logs_count_error_is_ignored :
    (countFailsEnv.CountProjectLogs "blog"
        [("created", [(Operator.GTE, Typed.time (countFailsEnv.now - dayNanos))])]).2
        = some "connection refused"
      ∧ ListProjectLogs countFailsEnv (some "blog") [] []
        = Run.returned
            ⟨200, Body.page [] "" 0,
              [StoreCall.count "blog"
                 [("created", [(Operator.GTE, Typed.time (countFailsEnv.now - dayNanos))])],
               StoreCall.list "blog" 10 0
                 [("created", [(Operator.GTE, Typed.time (countFailsEnv.now - dayNanos))])]
                 []]⟩ := by
  decide

end Machinable
